import Mathlib

/-!
Verification development for the camouflage-grpc mock server core
(`src/utils/handlers.ts`, `src/helpers/Capture.ts`).

JavaScript runtime values produced by `JSON.parse` (plus `undefined`) are
embedded as `JsValue`; objects are insertion-ordered association lists, which
matches `for ... in` enumeration order for the string keys produced by JSON
parsing.  JS numbers are modelled as integers: every number the claims
exercise (delays, status codes) is integral.
-/

namespace CamouflageGrpc

inductive JsValue where
  | null
  | undefined
  | bool (b : Bool)
  | num (n : Int)
  | str (s : String)
  | arr (elems : List JsValue)
  | obj (fields : List (String × JsValue))

/-- JavaScript truthiness: `null`, `undefined`, `false`, `0` and `""` are
falsy; every array and object (even empty) is truthy. -/
def truthy : JsValue → Bool
  | .null => false
  | .undefined => false
  | .bool b => b
  | .num n => n != 0
  | .str s => s != ""
  | .arr _ => true
  | .obj _ => true

/-- `v || alt` in JavaScript: the left operand when truthy, otherwise `alt`. -/
def jsOr (v alt : JsValue) : JsValue := if truthy v then v else alt

/-- Property read `o[k]`: a missing key, or a read on a non-object that is not
`null`/`undefined`, yields `undefined`.  (Reads on `null`/`undefined` throw;
the callers below guard that case explicitly.) -/
def getField (v : JsValue) (k : String) : JsValue :=
  match v with
  | .obj fields =>
    match fields.lookup k with
    | some w => w
    | none => .undefined
  | _ => .undefined

/-- `delete o[k]`: removes the property from an object, no-op otherwise. -/
def eraseKey (v : JsValue) (k : String) : JsValue :=
  match v with
  | .obj fields => .obj (fields.filter (fun p => p.1 != k))
  | _ => v

/-- Whether an object value owns the key `k`. -/
def hasKey (v : JsValue) (k : String) : Bool :=
  match v with
  | .obj fields => fields.any (fun p => p.1 == k)
  | _ => false

/-- `response === null || response === undefined`: exactly the inputs on which
a property read (`response.delay`) raises a `TypeError` in JavaScript. -/
def isNullish : JsValue → Bool
  | .null => true
  | .undefined => true
  | _ => false

/-- The fields of an object, `[]` for any other value (`for ... in` over a
non-object enumerates nothing for the values the mock documents produce). -/
def fieldsOf : JsValue → List (String × JsValue)
  | .obj fields => fields
  | _ => []

/-- The string content of a JS string value.  Non-string metadata values would
throw inside the external `grpc.Metadata.add` / `Buffer.from`; the claims only
quantify over string-valued metadata maps, so other values are defaulted. -/
def strOf : JsValue → String
  | .str s => s
  | _ => ""

/-! ### Base64 decoding, modelling Node's `Buffer.from(s, "base64")`
Node is lenient: characters outside the alphabet (including `=`) are skipped,
and a trailing group of 2 or 3 sextets contributes 1 or 2 bytes. -/

def b64Val (c : Char) : Option Nat :=
  if 'A' ≤ c ∧ c ≤ 'Z' then some (c.toNat - 65)
  else if 'a' ≤ c ∧ c ≤ 'z' then some (c.toNat - 97 + 26)
  else if '0' ≤ c ∧ c ≤ '9' then some (c.toNat - 48 + 52)
  else if c = '+' then some 62
  else if c = '/' then some 63
  else none

def packBytes : List Nat → List Nat
  | a :: b :: c :: d :: rest =>
    (a * 4 + b / 16) :: ((b % 16) * 16 + c / 4) :: ((c % 4) * 64 + d) :: packBytes rest
  | [a, b, c] => [a * 4 + b / 16, (b % 16) * 16 + c / 4]
  | [a, b] => [a * 4 + b / 16]
  | [_] => []
  | [] => []

def base64Decode (s : String) : List Nat :=
  packBytes (s.data.filterMap b64Val)

/-! ### Metadata construction (`processResponse`, handlers.ts lines 288-312) -/

/-- A value stored in a `grpc.Metadata` map: a plain string or decoded bytes. -/
inductive MetaVal where
  | str (s : String)
  | bytes (bs : List Nat)

/-- An insertion-ordered `grpc.Metadata` map (external collaborator; `add`
appends an entry). -/
abbrev Meta := List (String × MetaVal)

/-- `metadata.add(key, value)` appends the entry. -/
def addMeta (m : Meta) (k : String) (v : MetaVal) : Meta := m ++ [(k, v)]

/-- The `for (const key in headerMetadata)` loop of `processResponse`: keys
ending in `-bin` are base64-decoded to bytes, all other values are added as
plain strings. -/
def buildMeta : List (String × JsValue) → Meta → Meta
  | [], m => m
  | (k, v) :: rest, m =>
    buildMeta rest
      (addMeta m k
        (if k.endsWith "-bin" then MetaVal.bytes (base64Decode (strOf v))
         else MetaVal.str (strOf v)))

/-- The per-entry transformation that `buildMeta` is proved to implement. -/
def metaRule (p : String × JsValue) : String × MetaVal :=
  (p.1,
   if p.1.endsWith "-bin" then MetaVal.bytes (base64Decode (strOf p.2))
   else MetaVal.str (strOf p.2))

/-! ### `processResponse` (handlers.ts lines 281-315)

The source mutates its argument (`delete response.delay` etc.) and returns the
same object as `processedResponse`; the embedding threads that mutation
explicitly, so `payload` is at once the returned payload and the post-call
state of the input document.  A `null`/`undefined` argument raises a
`TypeError` at the first property read (`response.delay`). -/

structure ProcessedResponse where
  delay : JsValue
  error : JsValue
  headers : Option Meta
  trailers : Option Meta
  payload : JsValue

def processResponse (response : JsValue) : Except String ProcessedResponse :=
  if isNullish response then .error "TypeError" else
  let delay := jsOr (getField response "delay") (.num 0)
  let r1 := eraseKey response "delay"
  let error := jsOr (getField r1 "error") .null
  let r2 := eraseKey r1 "error"
  let md := getField r2 "metadata"
  if truthy md then
    let headerMetadata := jsOr (getField md "headers") .null
    let trailerMetadata := jsOr (getField md "trailers") .null
    let r3 := eraseKey r2 "metadata"
    let headers :=
      if truthy headerMetadata then some (buildMeta (fieldsOf headerMetadata) []) else none
    let trailers :=
      if truthy trailerMetadata then some (buildMeta (fieldsOf trailerMetadata) []) else none
    .ok ⟨delay, error, headers, trailers, r3⟩
  else
    .ok ⟨delay, error, none, none, r2⟩

/-! ### The domain on which the external metadata construction cannot throw

`processResponse` delegates each metadata entry to external collaborators
that are not total on arbitrary JSON: `Buffer.from(v, "base64")` raises a
`TypeError` when the `-bin` value is not a string (for example JSON `null`),
and `grpc.Metadata.add` validates its arguments — the key must be a nonempty
string of lowercase gRPC-legal characters and a non-`-bin` value a
printable-ASCII string — raising on anything else.  The embedding models
these collaborators as total over string data (see `strOf`/`addMeta`), which
is faithful exactly on the following domain; totality statements about
`processResponse` are therefore restricted to it. -/

/-- Whether one metadata map entry is accepted without throwing by the
external construction: a string value, a nonempty gRPC-legal key, and for
non-`-bin` keys a printable-ASCII value.  (The `-bin` suffix test is the
list-level equivalent of `String.endsWith`.) -/
def legalMetaEntry (p : String × JsValue) : Bool :=
  match p.2 with
  | .str s =>
    p.1 != "" &&
    p.1.data.all (fun c =>
      ('0' ≤ c && c ≤ '9') || ('a' ≤ c && c ≤ 'z') || c == '_' || c == '.' || c == '-') &&
    ("-bin".data.isSuffixOf p.1.data || s.data.all (fun c => ' ' ≤ c && c ≤ '~'))
  | _ => false

/-- A headers/trailers field on which the for-in construction loop cannot
throw: either falsy (the source skips it) or an object all of whose entries
are legal. -/
def metaMapOk (v : JsValue) : Bool :=
  if truthy v then
    match v with
    | .obj fs => fs.all legalMetaEntry
    | _ => false
  else true

/-- The metadata directive of a document lies in the domain on which the
external `grpc.Metadata` construction cannot throw. -/
def metadataWellFormed (doc : JsValue) : Bool :=
  if truthy (getField doc "metadata") then
    metaMapOk (getField (getField doc "metadata") "headers") &&
    metaMapOk (getField (getField doc "metadata") "trailers")
  else true

/-! ### Observable handler actions

Each RPC-shape handler is embedded as a function from its inputs (hook
behaviours, mock-file existence, render/parse outcomes — the suspension
points whose results the transport and template engine supply) to the ordered
list of observable actions it performs, paired with the message of an
exception that escapes the handler uncaught (a rejected promise nobody
catches), if any. -/

inductive Action where
  | hookCall (event : String)
  | logError (msg : String)
  | sleep (delay : JsValue)
  | sendMetadata (m : Meta)
  | callback (err : JsValue) (payload : JsValue) (trailers : Option Meta)
  | write (payload : JsValue)
  | emitError (err : JsValue)
  | endStream
  | metrics (code : JsValue) (rpcType : String)

/-- A user hook callback is modelled by its observable outcome: it either
resolves or rejects with an error message. -/
inductive HookResult where
  | ok
  | thrown (msg : String)

/-- The `for (...) await hooks[i](...)` loops: hooks run strictly in order,
stopping at the first rejection, whose message is reported. -/
def runHooks (event : String) : List HookResult → List Action × Option String
  | [] => ([], none)
  | HookResult.ok :: rest =>
    let r := runHooks event rest
    (Action.hookCall event :: r.1, r.2)
  | HookResult.thrown m :: _ => ([Action.hookCall event], some m)

/-- The message of the first hook in the list that rejects, if any. -/
def firstThrow : List HookResult → Option String
  | [] => none
  | HookResult.ok :: rest => firstThrow rest
  | HookResult.thrown m :: _ => some m

/-- A `{code, message}` status object as the handlers build them. -/
def errObj (code : Int) (msg : String) : JsValue :=
  .obj [("code", .num code), ("message", .str msg)]

/-- The caught-exception object of a `catch (error)` block (a JS `Error`: it
carries a `message` but no `code`). -/
def jsError (msg : String) : JsValue := .obj [("message", .str msg)]

def NOT_FOUND : Int := 5
def INTERNAL : Int := 13

/-- Stand-in for the interpolated not-found log/status message (the embedding
does not track the concrete mock file path). -/
def nfMsg : String := "No suitable mock file was found"

/-- `collectMetrics` (handlers.ts lines 320-328): the code label is
`error.code` when `error && error.code` is truthy, else `"0"`; so a missing
code, a non-object error, or `code: 0` all record label 0. -/
def collectMetricsAct (error : JsValue) (rpcType : String) : Action :=
  if truthy error && truthy (getField error "code") then
    .metrics (getField error "code") rpcType
  else
    .metrics (.num 0) rpcType

/-- Number of terminal-callback invocations in a trace. -/
def countCallbacks (acts : List Action) : Nat :=
  acts.countP fun a => match a with
    | .callback _ _ _ => true
    | _ => false

/-- The payloads written to the stream, in order. -/
def writesOf (acts : List Action) : List JsValue :=
  acts.filterMap fun a => match a with
    | .write p => some p
    | _ => none

/-! ### Unary handler (handlers.ts lines 41-89) -/

structure UnaryInput where
  onRequest : List HookResult
  beforeResponse : List HookResult
  afterResponse : List HookResult
  mockExists : Bool
  /-- Outcome of `helpers.parse` + `JSON.parse` on the rendered mock. -/
  rendered : Except String JsValue

/-- The body of the unary handler's `try` block: the actions performed and the
message of an exception thrown inside it, if any. -/
def unaryTry (inp : UnaryInput) : List Action × Option String :=
  if inp.mockExists then
    match inp.rendered with
    | .error m => ([], some m)
    | .ok response =>
      match processResponse response with
      | .error m => ([], some m)
      | .ok pr =>
        let rb := runHooks "beforeResponse" inp.beforeResponse
        match rb.2 with
        | some m => (rb.1, some m)
        | none =>
          let hdr := match pr.headers with
            | some h => [Action.sendMetadata h]
            | none => []
          let cb := [Action.callback pr.error pr.payload pr.trailers]
          let ra := runHooks "afterResponse" inp.afterResponse
          (rb.1 ++ [Action.sleep pr.delay] ++ hdr ++ cb
            ++ [collectMetricsAct pr.error "unary"] ++ ra.1, ra.2)
  else
    ([Action.logError nfMsg,
      Action.callback (errObj NOT_FOUND nfMsg) (.obj []) none,
      collectMetricsAct (errObj NOT_FOUND nfMsg) "unary"], none)

/-- The unary handler: `onRequest` hooks run before and outside the
`try`/`catch`, so their rejection escapes the handler; everything thrown
inside the `try` is converted to an INTERNAL callback plus a metrics record. -/
def unaryHandler (inp : UnaryInput) : List Action × Option String :=
  let r1 := runHooks "onRequest" inp.onRequest
  match r1.2 with
  | some m => (r1.1, some m)
  | none =>
    let t := unaryTry inp
    match t.2 with
    | none => (r1.1 ++ t.1, none)
    | some m =>
      (r1.1 ++ t.1
        ++ [Action.logError m,
            Action.callback (errObj INTERNAL m) (.obj []) none,
            collectMetricsAct (errObj INTERNAL m) "unary"], none)

/-! ### Client-streaming handler, `end` event (handlers.ts lines 157-199) -/

structure ClientEndInput where
  beforeResponse : List HookResult
  afterResponse : List HookResult
  mockExists : Bool
  rendered : Except String JsValue

/-- The `try` body of the client-streaming `end` listener. -/
def clientStreamTry (inp : ClientEndInput) : List Action × Option String :=
  if inp.mockExists then
    match inp.rendered with
    | .error m => ([], some m)
    | .ok response =>
      match processResponse response with
      | .error m => ([], some m)
      | .ok pr =>
        let rb := runHooks "beforeResponse" inp.beforeResponse
        match rb.2 with
        | some m => (rb.1, some m)
        | none =>
          let hdr := match pr.headers with
            | some h => [Action.sendMetadata h]
            | none => []
          let cb := [Action.callback pr.error pr.payload pr.trailers]
          let ra := runHooks "afterResponse" inp.afterResponse
          (rb.1 ++ [Action.sleep pr.delay] ++ hdr ++ cb
            ++ [collectMetricsAct pr.error "client-stream"] ++ ra.1, ra.2)
  else
    ([Action.logError nfMsg,
      Action.callback (errObj NOT_FOUND nfMsg) (.obj []) none,
      collectMetricsAct (errObj NOT_FOUND nfMsg) "client-stream"], none)

/-- The client-streaming `end` listener.  Its `catch` passes the raw caught
exception (no `code`) to `collectMetrics` — line 196 — so the metrics label is
0 there, unlike the unary catch. -/
def clientStreamOnEnd (inp : ClientEndInput) : List Action × Option String :=
  let t := clientStreamTry inp
  match t.2 with
  | none => (t.1, none)
  | some m =>
    (t.1
      ++ [Action.logError m,
          Action.callback (errObj INTERNAL m) (.obj []) none,
          collectMetricsAct (jsError m) "client-stream"], none)

/-! ### Server-streaming handler (handlers.ts lines 90-144)

The happy path iterates `streamArr.forEach(async (stream, index) => ...)`:
`forEach` does not await the async callback, so every chunk's callback starts
synchronously, in chunk order, and runs until its first suspension.  With
hooks resolving synchronously (microtasks), every chunk reaches
`await sleep(delay)` before any timer fires; the continuations then resume in
timer order — earliest deadline first, FIFO among equal deadlines — which is
Node's timer-queue discipline.  A chunk whose `JSON.parse`/`processResponse`
or hook rejects kills only that chunk's callback (an unhandled rejection the
surrounding `try`/`catch` cannot see). -/

/-- `setTimeout` duration coercion: numeric delays are used as given, anything
else behaves as 0. -/
def delayInt : JsValue → Int
  | .num n => n
  | _ => 0

/-- Remove the first pending timer task with the minimal deadline (FIFO on
ties). -/
def popMinTask : List (Int × List Action) → Option ((Int × List Action) × List (Int × List Action))
  | [] => none
  | (d, a) :: rest =>
    match popMinTask rest with
    | none => some ((d, a), [])
    | some ((d2, a2), rest2) =>
      if d ≤ d2 then some ((d, a), rest) else some ((d2, a2), (d, a) :: rest2)

/-- Modelled from the spec: `src/utils/sleep.ts` is not among the provided
sources; per §5 the artificial response delay is a suspension point, modelled
as a timer of `delay` milliseconds.  `fireAll` drains the pending timer tasks
earliest-deadline-first, FIFO among equal deadlines, emitting each task's
post-sleep actions when its timer fires. -/
def fireAll : Nat → List (Int × List Action) → List Action
  | 0, _ => []
  | fuel + 1, tasks =>
    match popMinTask tasks with
    | none => []
    | some ((_, acts), rest) => acts ++ fireAll fuel rest

/-- The post-`sleep` actions of chunk `i` of `n` (handlers.ts lines 116-128):
headers, error signal, payload write, trailers, `call.end()` after the chunk
with the last index, metrics, `afterResponse` hooks. -/
def chunkEmit (afterResponse : List HookResult) (n i : Nat) (pr : ProcessedResponse) :
    List Action :=
  (match pr.headers with
   | some h => [Action.sendMetadata h]
   | none => []) ++
  (if truthy pr.error then [Action.emitError pr.error] else []) ++
  [Action.write pr.payload] ++
  (match pr.trailers with
   | some t => [Action.sendMetadata t]
   | none => []) ++
  (if i = n - 1 then [Action.endStream] else []) ++
  [collectMetricsAct pr.error "server-stream"] ++
  (runHooks "afterResponse" afterResponse).1

/-- One chunk's async callback: the actions it performs before suspending at
`sleep` (its `beforeResponse` hook calls), and — unless it died first — the
timer task holding its post-sleep actions. -/
def chunkTask (beforeResponse afterResponse : List HookResult) (n i : Nat)
    (chunk : Except String JsValue) : List Action × Option (Int × List Action) :=
  match chunk with
  | .error _ => ([], none)
  | .ok doc =>
    match processResponse doc with
    | .error _ => ([], none)
    | .ok pr =>
      let rb := runHooks "beforeResponse" beforeResponse
      match rb.2 with
      | some _ => (rb.1, none)
      | none => (rb.1, some (delayInt pr.delay, chunkEmit afterResponse n i pr))

/-- The `forEach` loop over the `====`-split chunks: all callbacks start in
chunk order (pre-sleep actions first), then the timer queue drains. -/
def serverStreamBody (beforeResponse afterResponse : List HookResult)
    (chunks : List (Except String JsValue)) : List Action :=
  let tasks := chunks.enum.map fun p =>
    chunkTask beforeResponse afterResponse chunks.length p.1 p.2
  let timed := tasks.filterMap (·.2)
  (tasks.map (·.1)).flatten ++ fireAll timed.length timed

structure ServerStreamInput where
  onRequest : List HookResult
  beforeResponse : List HookResult
  afterResponse : List HookResult
  mockExists : Bool
  /-- Outcome of the top-level render (`helpers.parse`), split on `====`; each
  element carries its chunk's `JSON.parse` outcome. -/
  rendered : Except String (List (Except String JsValue))

/-- The server-streaming handler.  On a missing mock file the error object is
passed to `call.write` — written as an ordinary response message — and the
stream is closed (lines 137-143); the `catch` branch by contrast emits an
`error` event. -/
def serverSideStreamingHandler (inp : ServerStreamInput) : List Action × Option String :=
  let r1 := runHooks "onRequest" inp.onRequest
  match r1.2 with
  | some m => (r1.1, some m)
  | none =>
    if inp.mockExists then
      match inp.rendered with
      | .error m =>
        (r1.1
          ++ [Action.logError m, Action.emitError (errObj INTERNAL m), Action.endStream,
              collectMetricsAct (errObj INTERNAL m) "server-stream"], none)
      | .ok chunks =>
        (r1.1 ++ serverStreamBody inp.beforeResponse inp.afterResponse chunks, none)
    else
      (r1.1
        ++ [Action.logError nfMsg, Action.write (errObj NOT_FOUND nfMsg), Action.endStream,
            collectMetricsAct (errObj NOT_FOUND nfMsg) "server-stream"], none)

/-! ### Bidirectional-streaming handler (handlers.ts lines 201-280) -/

/-- The synchronous start of the bidi handler: when the mock file is absent it
writes the error object as a message, ends the stream and records metrics,
then returns; otherwise it only registers the `data`/`end` listeners
(modelled separately by `bidiOnEnd`). -/
def bidiStreamingHandler (mockExists : Bool) : List Action :=
  if mockExists then []
  else
    [Action.logError nfMsg, Action.write (errObj NOT_FOUND nfMsg), Action.endStream,
     collectMetricsAct (errObj NOT_FOUND nfMsg) "bidi-stream"]

/-- The bidi `end` listener (handlers.ts lines 254-279), taking the outcome of
rendering and parsing the mock against the accumulated requests.  When the
rendered document has a truthy `end` sub-document it is processed and emitted
but `call.end()` is never invoked in that branch; only the `end`-absent branch
and the `catch` close the stream. -/
def bidiOnEnd (rendered : Except String JsValue) : List Action :=
  match rendered with
  | .error m =>
    [Action.logError m, Action.emitError (errObj INTERNAL m), Action.endStream,
     collectMetricsAct (errObj INTERNAL m) "bidi-stream"]
  | .ok response =>
    if truthy (getField response "end") then
      match processResponse (getField response "end") with
      | .error m =>
        [Action.logError m, Action.emitError (errObj INTERNAL m), Action.endStream,
         collectMetricsAct (errObj INTERNAL m) "bidi-stream"]
      | .ok pr =>
        [Action.sleep pr.delay] ++
        (match pr.headers with
         | some h => [Action.sendMetadata h]
         | none => []) ++
        (if truthy pr.error then [Action.emitError pr.error] else []) ++
        [Action.write pr.payload] ++
        (match pr.trailers with
         | some t => [Action.sendMetadata t]
         | none => []) ++
        [collectMetricsAct pr.error "bidi-stream"]
    else
      [collectMetricsAct (.obj [("code", .num 0)]) "bidi-stream", Action.endStream]

/-! ### Capture Resolver (helpers/Capture.ts)

The external JavaScript facilities the resolver calls — `grpc.Metadata.get`,
`new RegExp`/`exec`, `JSON.stringify` and `jsonpath.query` — are supplied as
an environment.  `regexCompileOk` tells whether `new RegExp(selector)`
succeeds (an invalid pattern throws a `SyntaxError`); `regexExec` gives, for a
compiled pattern run against a body, `none` for no match or the first match's
capturing group 1 (which is `undefined` when the pattern has no group 1). -/

structure CaptureEnv where
  mdGet : String → JsValue
  regexCompileOk : String → Bool
  regexExec : String → String → Option (Option String)
  stringify : JsValue → String
  jsonpathQ : String → JsValue → Except String JsValue

/-- The helper's rendering context: `context.data.root.request` and the
`context.hash` parameters (`none` models an omitted/undefined parameter). -/
structure CaptureContext where
  request : JsValue
  fromVal : Option String
  key : Option String
  usingVal : Option String
  selector : Option String

/-- Truthiness of a hash parameter: present and non-empty. -/
def strTruthy : Option String → Bool
  | none => false
  | some s => s != ""

def exceptOk : Except String JsValue → Bool
  | .ok _ => true
  | .error _ => false

/-- The `capture` template helper (`RequestHelper`): a thrown value is an
`Except.error` escaping template rendering.  Every branch mirrors the source's
`switch`: the only uncaught throw is `new RegExp(selector)` on an invalid
pattern — the `jsonpath` branch is guarded by `try`/`catch`, the other failure
branches return `null`. -/
def RequestHelper (env : CaptureEnv) (ctx : CaptureContext) : Except String JsValue :=
  if ctx.fromVal == some "metadata" then
    if !strTruthy ctx.key then .ok .null
    else .ok (jsOr (env.mdGet (ctx.key.getD "")) .null)
  else if ctx.fromVal == some "request" then
    if !strTruthy ctx.usingVal || !strTruthy ctx.selector then .ok .null
    else if ctx.usingVal == some "regex" then
      if env.regexCompileOk (ctx.selector.getD "") then
        match env.regexExec (ctx.selector.getD "") (env.stringify ctx.request) with
        | some (some g) => .ok (.str g)
        | some none => .ok .undefined
        | none => .ok .null
      else .error "SyntaxError: Invalid regular expression"
    else if ctx.usingVal == some "jsonpath" then
      match env.jsonpathQ (ctx.selector.getD "") ctx.request with
      | .ok v => .ok v
      | .error _ => .ok .null
    else .ok .null
  else .ok .null

/-! ### Helper lemmas about the object operations and hook loops -/

theorem lookup_filter_ne (fs : List (String × JsValue)) (k k2 : String) (h : k ≠ k2) :
    (fs.filter fun p => p.1 != k2).lookup k = fs.lookup k := by
  induction fs with
  | nil => simp
  | cons hd tl ih =>
    obtain ⟨a, b⟩ := hd
    by_cases h1 : a = k2
    · subst h1
      have hne : (k == a) = false := by simpa using h
      simp [List.filter_cons, List.lookup, hne, ih]
    · by_cases h2 : k = a
      · subst h2
        simp [List.filter_cons, h1, List.lookup]
      · simp [List.filter_cons, List.lookup, h1, h2, ih]

theorem getField_eraseKey_ne (v : JsValue) (k k2 : String) (h : k ≠ k2) :
    getField (eraseKey v k2) k = getField v k := by
  cases v <;> simp [getField, eraseKey]
  rw [lookup_filter_ne _ _ _ h]

theorem lookup_eq_none_of_hasKey_false (fs : List (String × JsValue)) (k : String)
    (h : fs.any (fun p => p.1 == k) = false) : fs.lookup k = none := by
  induction fs with
  | nil => simp
  | cons hd tl ih =>
    simp only [List.any_cons, Bool.or_eq_false_iff] at h
    obtain ⟨a, b⟩ := hd
    have hne : (k == a) = false := by
      have h1 := h.1
      simp only [beq_eq_false_iff_ne] at h1 ⊢
      exact fun hh => h1 hh.symm
    simp [List.lookup, hne, ih h.2]

theorem getField_of_hasKey_false (v : JsValue) (k : String) (h : hasKey v k = false) :
    getField v k = .undefined := by
  cases v <;> simp_all [getField, hasKey]
  rw [lookup_eq_none_of_hasKey_false _ _ (by simpa using h)]

theorem eraseKey_of_hasKey_false (v : JsValue) (k : String) (h : hasKey v k = false) :
    eraseKey v k = v := by
  cases v <;> simp_all [eraseKey, hasKey]
  exact h

theorem hasKey_eraseKey_self (v : JsValue) (k : String) :
    hasKey (eraseKey v k) k = false := by
  cases v <;> simp [hasKey, eraseKey]

theorem hasKey_eraseKey_of_false (v : JsValue) (k k2 : String) (h : hasKey v k = false) :
    hasKey (eraseKey v k2) k = false := by
  cases v <;> simp_all [hasKey, eraseKey]
  intro a b hab _
  exact h a b hab

theorem isNullish_eraseKey (v : JsValue) (k : String) :
    isNullish (eraseKey v k) = isNullish v := by
  cases v <;> rfl

theorem buildMeta_eq_map (fs : List (String × JsValue)) (m : Meta) :
    buildMeta fs m = m ++ fs.map metaRule := by
  induction fs generalizing m with
  | nil => simp [buildMeta]
  | cons hd tl ih =>
    obtain ⟨k, v⟩ := hd
    simp [buildMeta, addMeta, metaRule, ih]

theorem runHooks_snd (ev : String) (hooks : List HookResult) :
    (runHooks ev hooks).2 = firstThrow hooks := by
  induction hooks with
  | nil => rfl
  | cons hd tl ih =>
    cases hd <;> simp [runHooks, firstThrow, ih]

theorem firstThrow_eq_none (hooks : List HookResult)
    (h : ∀ hk ∈ hooks, hk = HookResult.ok) : firstThrow hooks = none := by
  induction hooks with
  | nil => rfl
  | cons hd tl ih =>
    have h1 := h hd (by simp)
    subst h1
    exact ih fun hk hm => h hk (by simp [hm])

theorem countCallbacks_runHooks (ev : String) (hooks : List HookResult) :
    countCallbacks (runHooks ev hooks).1 = 0 := by
  induction hooks with
  | nil => rfl
  | cons hd tl ih =>
    cases hd <;> simp_all [runHooks, countCallbacks]

/-- A document that has no `delay` or `error` key and a falsy `metadata`
field is processed to delay 0, error null, no metadata, and itself as
payload. -/
theorem processResponse_of_stripped (v : JsValue)
    (hn : isNullish v = false)
    (hd : hasKey v "delay" = false)
    (he : hasKey v "error" = false)
    (hm : truthy (getField v "metadata") = false) :
    processResponse v = .ok ⟨.num 0, .null, none, none, v⟩ := by
  have gd : getField v "delay" = .undefined := getField_of_hasKey_false _ _ hd
  have ed : eraseKey v "delay" = v := eraseKey_of_hasKey_false _ _ hd
  have ge : getField v "error" = .undefined := getField_of_hasKey_false _ _ he
  have ee : eraseKey v "error" = v := eraseKey_of_hasKey_false _ _ he
  have tu : truthy JsValue.undefined = false := rfl
  simp [processResponse, hn, gd, ed, ge, ee, hm, jsOr, tu]

/-! ### Claim theorems -/

/-- Claim C1: the spec requires server-streaming chunks to be written in mock
document order, chunk n+1 never before chunk n completes.  The source iterates
`streamArr.forEach(async ...)` without awaiting, so the per-chunk work
interleaves on the timer queue: for a two-chunk mock whose first chunk carries
`delay: 10` and whose second carries no delay, the second chunk is written —
and `call.end()` issued, since the second chunk has the last index — before the
first chunk is written at all. -/
theorem C1_server_stream_write_order :
    (serverSideStreamingHandler
        ⟨[], [], [], true,
         .ok [.ok (.obj [("a", .num 1), ("delay", .num 10)]),
              .ok (.obj [("a", .num 2)])]⟩).1 =
      [Action.write (.obj [("a", .num 2)]), Action.endStream,
       Action.metrics (.num 0) "server-stream",
       Action.write (.obj [("a", .num 1)]),
       Action.metrics (.num 0) "server-stream"]
    ∧ writesOf (serverSideStreamingHandler
        ⟨[], [], [], true,
         .ok [.ok (.obj [("a", .num 1), ("delay", .num 10)]),
              .ok (.obj [("a", .num 2)])]⟩).1 =
      [.obj [("a", .num 2)], .obj [("a", .num 1)]] :=
  ⟨rfl, rfl⟩

/-- Claim C2 counterexample: `processResponse` is not total on well-formed
JSON — on JSON `null` the first property read (`response.delay`) raises a
`TypeError` — and it is not pure: on `{delay: 5}` the returned
`processedResponse` is the input object itself after `delete response.delay`,
i.e. the input document has been changed to `{}`. -/
theorem C2_counterexample :
    processResponse JsValue.null = .error "TypeError"
    ∧ processResponse (.obj [("delay", .num 5)]) =
        .ok ⟨.num 5, .null, none, none, .obj []⟩
    ∧ JsValue.obj [] ≠ JsValue.obj [("delay", JsValue.num 5)] :=
  ⟨rfl, rfl, by simp⟩

/-- Claim C2 (amended): deriving a ProcessedResponse is deterministic but
neither pure nor total.  It throws a `TypeError` on JSON `null` (and
`undefined`), and outside the `metadataWellFormed` domain the external
metadata construction can throw as well (`Buffer.from` on non-string `-bin`
values, `grpc.Metadata.add` key/value validation); it mutates its input in
place, removing the directive keys.  On non-null documents whose metadata
directive lies in the well-formed domain, processing succeeds, and
re-processing the returned payload — the same mutated object — always yields
delay 0, error null and no metadata regardless of the original directives. -/
theorem C2_amended (doc : JsValue) (hn : isNullish doc = false)
    (_hwf : metadataWellFormed doc = true) :
    ∃ pr, processResponse doc = .ok pr ∧
      processResponse pr.payload = .ok ⟨.num 0, .null, none, none, pr.payload⟩ := by
  have hd2 : hasKey (eraseKey (eraseKey doc "delay") "error") "delay" = false :=
    hasKey_eraseKey_of_false _ _ _ (hasKey_eraseKey_self _ _)
  have he2 : hasKey (eraseKey (eraseKey doc "delay") "error") "error" = false :=
    hasKey_eraseKey_self _ _
  have hn2 : isNullish (eraseKey (eraseKey doc "delay") "error") = false := by
    rw [isNullish_eraseKey, isNullish_eraseKey]; exact hn
  obtain ⟨pr, hpr⟩ : ∃ pr, processResponse doc = .ok pr := by
    simp only [processResponse, hn, Bool.false_eq_true, if_false]
    split <;> exact ⟨_, rfl⟩
  refine ⟨pr, hpr, ?_⟩
  have hpr2 := hpr
  simp only [processResponse, hn, Bool.false_eq_true, if_false] at hpr2
  split at hpr2
  · simp only [Except.ok.injEq] at hpr2
    subst hpr2
    exact processResponse_of_stripped _
      (by rw [isNullish_eraseKey]; exact hn2)
      (hasKey_eraseKey_of_false _ _ _ hd2)
      (hasKey_eraseKey_of_false _ _ _ he2)
      (by rw [getField_of_hasKey_false _ _ (hasKey_eraseKey_self _ _)]; rfl)
  · rename_i hmd
    simp only [Except.ok.injEq] at hpr2
    subst hpr2
    exact processResponse_of_stripped _ hn2 hd2 he2 (by simpa using hmd)

/-- Witness for C2 (amended) at the concrete document
`{delay: 5, metadata: {headers: {"k-bin": "QQ=="}}}`, whose metadata map is
inside the well-formed domain. -/
theorem C2_witness :
    ∃ pr, processResponse
        (.obj [("delay", .num 5),
               ("metadata", .obj [("headers", .obj [("k-bin", .str "QQ==")])])]) = .ok pr ∧
      processResponse pr.payload = .ok ⟨.num 0, .null, none, none, pr.payload⟩ :=
  C2_amended
    (.obj [("delay", .num 5),
           ("metadata", .obj [("headers", .obj [("k-bin", .str "QQ==")])])]) rfl rfl

/-- Claim C3: on bidi stream end the code does emit exactly one final chunk
when the rendered document has a truthy `end` sub-document, and closes
immediately with an OK metrics record and no write when `end` is absent — but
in the `end`-present branch `call.end()` is never invoked: the emitted trace
contains the write and no `endStream`, contradicting the spec requirement to
close the stream after the final chunk. -/
theorem C3_bidi_end_behavior :
    bidiOnEnd (.ok (.obj [("end", .obj [("msg", .str "bye")])])) =
      [Action.sleep (.num 0), Action.write (.obj [("msg", .str "bye")]),
       Action.metrics (.num 0) "bidi-stream"]
    ∧ bidiOnEnd (.ok (.obj [])) =
      [Action.metrics (.num 0) "bidi-stream", Action.endStream] :=
  ⟨rfl, rfl⟩

/-- Claim C4 counterexample: with `from="request"`, `using="regex"` and the
invalid regular-expression selector `"("`, `new RegExp(selector)` throws a
`SyntaxError` that no `try`/`catch` in the resolver intercepts — the capture
resolver does raise, contrary to the claim. -/
theorem C4_counterexample :
    RequestHelper
      ⟨fun _ => .arr [], fun s => !(s == "("), fun _ _ => none,
       fun _ => "", fun _ _ => .ok .null⟩
      ⟨.obj [], some "request", none, some "regex", some "("⟩ =
      .error "SyntaxError: Invalid regular expression" := rfl

/-- Claim C4 (amended): the capture resolver never raises except in the
request/regex path with a selector that is an invalid regular expression;
whenever the selector compiles (or the regex path is not taken at all), every
failure path — missing parameters, unknown source or `using` value, invalid
JSONPath, no match — degrades to a null result. -/
theorem C4_amended (env : CaptureEnv) (ctx : CaptureContext)
    (h : ctx.usingVal = some "regex" → strTruthy ctx.selector = true →
         env.regexCompileOk (ctx.selector.getD "") = true) :
    exceptOk (RequestHelper env ctx) = true := by
  unfold RequestHelper
  split
  · split <;> rfl
  · split
    · split
      · rfl
      · split
        · rename_i h1 h2 h3 h4
          have hcompile : env.regexCompileOk (ctx.selector.getD "") = true := by
            apply h (by simpa using h4)
            simp only [Bool.or_eq_true, Bool.not_eq_true'] at h3
            push_neg at h3
            rcases h3 with ⟨_, hsel⟩
            simpa using hsel
          rw [hcompile]
          simp only [if_true]
          split <;> rfl
        · split
          · split <;> rfl
          · rfl
    · rfl

/-- Witness for C4 (amended) on a request/regex capture whose selector
compiles. -/
theorem C4_witness :
    exceptOk (RequestHelper
      ⟨fun _ => .null, fun _ => true, fun _ _ => none, fun _ => "",
       fun _ _ => .ok .null⟩
      ⟨.obj [], some "request", none, some "regex", some "x"⟩) = true :=
  C4_amended
    ⟨fun _ => .null, fun _ => true, fun _ _ => none, fun _ => "",
     fun _ _ => .ok .null⟩
    ⟨.obj [], some "request", none, some "regex", some "x"⟩
    (fun _ _ => rfl)

/-- Claim C5: the unary terminal callback is not always invoked exactly once.
With the mock present, an `afterResponse` hook that throws after the success
callback reaches the `catch` block, which invokes the callback a second time
with an INTERNAL error: the trace contains two callback invocations. -/
theorem C5_double_callback :
    countCallbacks
        (unaryHandler ⟨[], [], [HookResult.thrown "boom"], true, .ok (.obj [])⟩).1 = 2
    ∧ (unaryHandler ⟨[], [], [HookResult.thrown "boom"], true, .ok (.obj [])⟩).2 = none :=
  ⟨rfl, rfl⟩

/-- Claim C6: on a missing mock file all four shape handlers record exactly
one metrics sample labelled with the NOT_FOUND code, and the unary and
client-streaming handlers deliver a NOT_FOUND status with empty payload — but
the server-streaming and bidi handlers instead pass the error object to
`call.write`, emitting it as an ordinary response message and closing the
stream without any error status. -/
theorem C6_not_found_traces :
    unaryHandler ⟨[], [], [], false, .ok (.obj [])⟩ =
      ([Action.logError nfMsg,
        Action.callback (errObj NOT_FOUND nfMsg) (.obj []) none,
        Action.metrics (.num 5) "unary"], none)
    ∧ clientStreamOnEnd ⟨[], [], false, .ok (.obj [])⟩ =
      ([Action.logError nfMsg,
        Action.callback (errObj NOT_FOUND nfMsg) (.obj []) none,
        Action.metrics (.num 5) "client-stream"], none)
    ∧ serverSideStreamingHandler ⟨[], [], [], false, .ok []⟩ =
      ([Action.logError nfMsg, Action.write (errObj NOT_FOUND nfMsg), Action.endStream,
        Action.metrics (.num 5) "server-stream"], none)
    ∧ bidiStreamingHandler false =
      [Action.logError nfMsg, Action.write (errObj NOT_FOUND nfMsg), Action.endStream,
       Action.metrics (.num 5) "bidi-stream"] :=
  ⟨rfl, rfl, rfl, rfl⟩

/-- Claim C7 counterexample: an `onRequest` hook that throws in the unary
handler is not caught — the hooks run before the `try` block — so the failure
escapes the handler uncaught, with no log, no INTERNAL callback and no metrics
record, contrary to the claim that every raising hook is handled like a
RenderOrParseFailure. -/
theorem C7_counterexample :
    unaryHandler ⟨[HookResult.thrown "boom"], [], [], true, .ok (.obj [])⟩ =
      ([Action.hookCall "onRequest"], some "boom") := rfl

/-- Claim C7 (amended): in the unary handler a `beforeResponse` (or
`afterResponse`) hook failure is caught at the handler boundary and handled
like a RenderOrParseFailure — logged, converted to a terminal INTERNAL
callback carrying the failure message, with a metrics record — whereas an
`onRequest` hook failure propagates out of the handler uncaught, with no
callback invocation at all. -/
theorem C7_amended (inp : UnaryInput) (m : String) (d : JsValue) (pr : ProcessedResponse) :
    (firstThrow inp.onRequest = some m →
      (unaryHandler inp).2 = some m ∧ countCallbacks (unaryHandler inp).1 = 0)
    ∧ ((∀ hk ∈ inp.onRequest, hk = HookResult.ok) → inp.mockExists = true →
      inp.rendered = .ok d → processResponse d = .ok pr →
      firstThrow inp.beforeResponse = some m →
      (unaryHandler inp).2 = none ∧
      ∃ p, (unaryHandler inp).1 =
        p ++ [Action.logError m, Action.callback (errObj INTERNAL m) (.obj []) none,
              collectMetricsAct (errObj INTERNAL m) "unary"]) := by
  constructor
  · intro hft
    have hsnd : (runHooks "onRequest" inp.onRequest).2 = some m :=
      (runHooks_snd _ _).trans hft
    simp only [unaryHandler, hsnd]
    exact ⟨trivial, countCallbacks_runHooks _ _⟩
  · intro hallok hme hrend hproc hft
    have hsnd : (runHooks "onRequest" inp.onRequest).2 = none :=
      (runHooks_snd _ _).trans (firstThrow_eq_none _ hallok)
    have hbsnd : (runHooks "beforeResponse" inp.beforeResponse).2 = some m :=
      (runHooks_snd _ _).trans hft
    have htry : unaryTry inp = ((runHooks "beforeResponse" inp.beforeResponse).1, some m) := by
      simp only [unaryTry, hme, if_true, hrend, hproc, hbsnd]
    simp only [unaryHandler, hsnd, htry]
    exact ⟨trivial,
      (runHooks "onRequest" inp.onRequest).1 ++
        (runHooks "beforeResponse" inp.beforeResponse).1, rfl⟩

/-- Witness for C7 (amended): a throwing `onRequest` hook escapes uncaught
with zero callbacks, and a throwing `beforeResponse` hook is converted to the
INTERNAL callback triple. -/
theorem C7_witness :
    ((unaryHandler ⟨[HookResult.thrown "a"], [], [], true, .ok (.obj [])⟩).2 = some "a" ∧
      countCallbacks
        (unaryHandler ⟨[HookResult.thrown "a"], [], [], true, .ok (.obj [])⟩).1 = 0)
    ∧ ((unaryHandler ⟨[], [HookResult.thrown "b"], [], true, .ok (.obj [])⟩).2 = none ∧
      ∃ p, (unaryHandler ⟨[], [HookResult.thrown "b"], [], true, .ok (.obj [])⟩).1 =
        p ++ [Action.logError "b", Action.callback (errObj INTERNAL "b") (.obj []) none,
              collectMetricsAct (errObj INTERNAL "b") "unary"]) :=
  ⟨(C7_amended ⟨[HookResult.thrown "a"], [], [], true, .ok (.obj [])⟩ "a" (.obj [])
      ⟨.num 0, .null, none, none, .obj []⟩).1 rfl,
   (C7_amended ⟨[], [HookResult.thrown "b"], [], true, .ok (.obj [])⟩ "b" (.obj [])
      ⟨.num 0, .null, none, none, .obj []⟩).2 (by simp) rfl rfl rfl rfl⟩

/-- Claim C8 counterexample: for the document `{metadata: null}` the key
`metadata` is present with a falsy value, so `delete response.metadata` never
runs (it sits inside `if (response.metadata)`) and the payload still contains
the `metadata` key — contrary to the claim that the payload contains none of
the directive keys even when they are falsy. -/
theorem C8_counterexample :
    processResponse (.obj [("metadata", JsValue.null)]) =
      .ok ⟨.num 0, .null, none, none, .obj [("metadata", JsValue.null)]⟩
    ∧ hasKey (JsValue.obj [("metadata", JsValue.null)]) "metadata" = true :=
  ⟨rfl, rfl⟩

/-- Claim C8 (amended): the payload never contains the `delay` or `error`
keys (their deletes are unconditional), and it does not contain the
`metadata` key whenever the metadata value is truthy; a falsy `metadata`
value remains in the payload.  The resulting delay is a non-negative number
whenever the delay directive is absent or a non-negative number. -/
theorem C8_amended (doc : JsValue) (hn : isNullish doc = false)
    (hdw : getField doc "delay" = .undefined ∨
      ∃ n : Int, getField doc "delay" = .num n ∧ 0 ≤ n) :
    ∃ pr, processResponse doc = .ok pr ∧
      hasKey pr.payload "delay" = false ∧
      hasKey pr.payload "error" = false ∧
      (truthy (getField doc "metadata") = true → hasKey pr.payload "metadata" = false) ∧
      ∃ n : Int, pr.delay = .num n ∧ 0 ≤ n := by
  have hd2 : hasKey (eraseKey (eraseKey doc "delay") "error") "delay" = false :=
    hasKey_eraseKey_of_false _ _ _ (hasKey_eraseKey_self _ _)
  have he2 : hasKey (eraseKey (eraseKey doc "delay") "error") "error" = false :=
    hasKey_eraseKey_self _ _
  have hmd_eq : getField (eraseKey (eraseKey doc "delay") "error") "metadata" =
      getField doc "metadata" := by
    rw [getField_eraseKey_ne _ _ _ (by decide), getField_eraseKey_ne _ _ _ (by decide)]
  have hdelay : ∃ n : Int, jsOr (getField doc "delay") (.num 0) = .num n ∧ 0 ≤ n := by
    rcases hdw with h | ⟨n, hgn, hn0⟩
    · exact ⟨0, by simp [h, jsOr, truthy], le_refl 0⟩
    · by_cases hz : n = 0
      · subst hz
        exact ⟨0, by simp [hgn, jsOr, truthy], le_refl 0⟩
      · refine ⟨n, ?_, hn0⟩
        have ht : truthy (.num n) = true := by simp [truthy, hz]
        simp [hgn, jsOr, ht]
  obtain ⟨pr, hpr⟩ : ∃ pr, processResponse doc = .ok pr := by
    simp only [processResponse, hn, Bool.false_eq_true, if_false]
    split <;> exact ⟨_, rfl⟩
  refine ⟨pr, hpr, ?_⟩
  have hpr2 := hpr
  simp only [processResponse, hn, Bool.false_eq_true, if_false] at hpr2
  split at hpr2
  · simp only [Except.ok.injEq] at hpr2
    subst hpr2
    exact ⟨hasKey_eraseKey_of_false _ _ _ hd2, hasKey_eraseKey_of_false _ _ _ he2,
      fun _ => hasKey_eraseKey_self _ _, hdelay⟩
  · rename_i hmd
    simp only [Except.ok.injEq] at hpr2
    subst hpr2
    refine ⟨hd2, he2, fun ht => ?_, hdelay⟩
    rw [hmd_eq] at hmd
    exact absurd ht (by simpa using hmd)

/-- Witness for C8 (amended) at a document carrying a delay directive and a
truthy metadata object. -/
theorem C8_witness :
    ∃ pr, processResponse
        (.obj [("delay", .num 3),
               ("metadata", .obj [("headers", .obj [("k", .str "v")])])]) = .ok pr ∧
      hasKey pr.payload "delay" = false ∧
      hasKey pr.payload "error" = false ∧
      (truthy (getField
          (.obj [("delay", .num 3),
                 ("metadata", .obj [("headers", .obj [("k", .str "v")])])])
          "metadata") = true → hasKey pr.payload "metadata" = false) ∧
      ∃ n : Int, pr.delay = .num n ∧ 0 ≤ n :=
  C8_amended _ rfl (Or.inr ⟨3, rfl, by decide⟩)

/-- Claim C9: for every key in the metadata headers/trailers maps, the built
ProcessedResponse metadata entry is the base64 decoding of the string value
when the key ends in `-bin`, and the unchanged plain string otherwise — the
for-in construction loop (`buildMeta`) implements exactly the per-entry
`metaRule` map. -/
theorem C9_bin_metadata (h t : List (String × JsValue)) :
    processResponse
        (.obj [("metadata", .obj [("headers", .obj h), ("trailers", .obj t)])]) =
      .ok ⟨.num 0, .null, some (h.map metaRule), some (t.map metaRule), .obj []⟩ := by
  have base : processResponse
      (.obj [("metadata", .obj [("headers", .obj h), ("trailers", .obj t)])]) =
      .ok ⟨.num 0, .null, some (buildMeta h []), some (buildMeta t []), .obj []⟩ := rfl
  rw [base, buildMeta_eq_map, buildMeta_eq_map]
  simp

/-- Claim C10: a metadata capture with a truthy key returns the raw lookup
result whenever it is truthy and null whenever it is falsy; in particular a
key bound to a falsy value yields null, and a truthy empty-collection lookup
result (as the external `grpc.Metadata.get` returns for an absent key) is
returned as-is, not as null. -/
theorem C10_metadata_truthiness (env : CaptureEnv) (req : JsValue) (k : String)
    (u s : Option String) (hk : k ≠ "") :
    RequestHelper env ⟨req, some "metadata", some k, u, s⟩ =
      .ok (if truthy (env.mdGet k) then env.mdGet k else .null)
    ∧ (truthy (env.mdGet k) = false →
        RequestHelper env ⟨req, some "metadata", some k, u, s⟩ = .ok .null)
    ∧ (env.mdGet k = .arr [] →
        RequestHelper env ⟨req, some "metadata", some k, u, s⟩ = .ok (.arr [])) := by
  have hkt : strTruthy (some k) = true := by simpa [strTruthy] using hk
  have h1 : RequestHelper env ⟨req, some "metadata", some k, u, s⟩ =
      .ok (if truthy (env.mdGet k) then env.mdGet k else .null) := by
    simp [RequestHelper, hkt, jsOr]
  refine ⟨h1, fun hf => ?_, fun he => ?_⟩
  · rw [h1, hf]
    simp
  · rw [h1, he]
    rfl

/-- Witness for C10 at a concrete metadata map whose lookup returns the empty
array (the `grpc.Metadata.get` result for an absent key). -/
theorem C10_witness :
    RequestHelper
      ⟨fun _ => .arr [], fun _ => true, fun _ _ => none, fun _ => "",
       fun _ _ => .ok .null⟩
      ⟨.obj [], some "metadata", some "k", none, none⟩ =
      .ok (if truthy (JsValue.arr []) then JsValue.arr [] else .null)
    ∧ (truthy (JsValue.arr []) = false →
        RequestHelper
          ⟨fun _ => .arr [], fun _ => true, fun _ _ => none, fun _ => "",
           fun _ _ => .ok .null⟩
          ⟨.obj [], some "metadata", some "k", none, none⟩ = .ok .null)
    ∧ (JsValue.arr [] = .arr [] →
        RequestHelper
          ⟨fun _ => .arr [], fun _ => true, fun _ _ => none, fun _ => "",
           fun _ _ => .ok .null⟩
          ⟨.obj [], some "metadata", some "k", none, none⟩ = .ok (.arr [])) :=
  C10_metadata_truthiness _ _ "k" none none (by decide)

end CamouflageGrpc
